import Mathlib

/-!
Verification of the flow-graph processing module
(`langflow/processing/process.py`).

The Python module is shallowly embedded: JSON-like dictionaries become the
inductive type `Json`, Python exceptions become the `PyError` type carried by
`Except`, and the duck-typed "langchain object" becomes the record `LCObject`
whose optional attributes are `Option` fields (an attribute access on an
absent attribute raises `AttributeError`, exactly as in Python).
-/

set_option autoImplicit false

namespace Langflow

/-- A JSON-like Python value: `None`, booleans, integers, strings, lists and
string-keyed dictionaries (modelled as association lists). -/
inductive Json where
  | null
  | bool (b : Bool)
  | num (n : Int)
  | str (s : String)
  | arr (xs : List Json)
  | obj (kvs : List (String × Json))

/-- The Python exceptions that the embedded code can raise. -/
inductive PyError where
  | valueError (msg : String)
  | typeError (msg : String)
  | attributeError (msg : String)
  | keyError (msg : String)
  | indexError (msg : String)
deriving Repr, DecidableEq

/-- Python `str(exc)`: the message carried by the exception. -/
def pyStr : PyError → String
  | .valueError m => m
  | .typeError m => m
  | .attributeError m => m
  | .keyError m => m
  | .indexError m => m

/-- Python truthiness of a JSON-like value (`bool(x)`). -/
def jtruthy : Json → Bool
  | .null => false
  | .bool b => b
  | .num n => n != 0
  | .str s => s != ""
  | .arr xs => !xs.isEmpty
  | .obj kvs => !kvs.isEmpty

/-- Whether the value is a Python `dict` (`isinstance(x, dict)`). -/
def isObj : Json → Bool
  | .obj _ => true
  | _ => false

/-- Whether the value is a Python `list` (`isinstance(x, list)`). -/
def isArr : Json → Bool
  | .arr _ => true
  | _ => false

/-- Dictionary lookup that returns `none` when the value is not a dictionary
or the key is absent (used where the receiver is already known to be a dict). -/
def jlookup (j : Json) (k : String) : Option Json :=
  match j with
  | .obj kvs => kvs.lookup k
  | _ => none

/-- Python `x.get(k, default)`: raises `AttributeError` when `x` is not a
dictionary. -/
def pyGetD (j : Json) (k : String) (d : Json) : Except PyError Json :=
  match j with
  | .obj kvs => .ok ((kvs.lookup k).getD d)
  | _ => .error (.attributeError "get")

/-- Python `x.get(k)` (default `None`): raises `AttributeError` when `x` is
not a dictionary. -/
def pyGetOpt (j : Json) (k : String) : Except PyError Json :=
  match j with
  | .obj kvs => .ok ((kvs.lookup k).getD .null)
  | _ => .error (.attributeError "get")

/-- Python `x[k]` on a dictionary: `KeyError` when the key is absent,
`TypeError` when the receiver is not a dictionary. -/
def pySubscript (j : Json) (k : String) : Except PyError Json :=
  match j with
  | .obj kvs =>
    match kvs.lookup k with
    | some v => .ok v
    | none => .error (.keyError k)
  | _ => .error (.typeError "object is not subscriptable")

/-- Python `d[k] = v` on an association list: replace the binding of `k`
(unique in an actual `dict`), or append the binding when the key is absent. -/
def setKey : List (String × Json) → String → Json → List (String × Json)
  | [], k, v => [(k, v)]
  | p :: tl, k, v => if p.1 == k then (k, v) :: tl else p :: setKey tl k v

/-- `d[k] = v` at the `Json` level; leaves non-dictionaries unchanged (only
used after the receiver has been checked to be a dictionary). -/
def jSetObjKey (j : Json) (k : String) (v : Json) : Json :=
  match j with
  | .obj kvs => .obj (setKey kvs k v)
  | _ => j

/-- `mapM` for `Except`, written by direct recursion so that its equations are
available to the proofs below. -/
def mapMExcept {α β ε : Type} (f : α → Except ε β) : List α → Except ε (List β)
  | [] => .ok []
  | x :: xs => do
    let y ← f x
    let ys ← mapMExcept f xs
    .ok (y :: ys)

/-- `foldlM` for `Except`, written by direct recursion. -/
def foldlMExcept {α γ ε : Type} (f : γ → α → Except ε γ) :
    γ → List α → Except ε γ
  | acc, [] => .ok acc
  | acc, x :: xs => do
    let acc' ← f acc x
    foldlMExcept f acc' xs

/-! ## `validate_input` -/

/-- `validate_input(graph_data, tweaks)` from `process.py`: checks that both
arguments are dictionaries, selects the node list as
`graph_data.get("data", {}).get("nodes") or graph_data.get("nodes")`
(Python `or`: the first operand is kept only when truthy), and checks the
selected value is a list. -/
def validate_input (graph_data tweaks : Json) :
    Except PyError (List Json) :=
  if !isObj graph_data || !isObj tweaks then
    .error (.valueError "graph_data and tweaks should be dictionaries")
  else do
    let dataVal := (jlookup graph_data "data").getD (.obj [])
    let dataNodes ← pyGetOpt dataVal "nodes"
    let nodes :=
      if jtruthy dataNodes then dataNodes
      else (jlookup graph_data "nodes").getD .null
    match nodes with
    | .arr xs => .ok xs
    | _ =>
      .error (.valueError
        "graph_data should contain a list of nodes under data key or directly under nodes key")

/-! ## `apply_tweaks` -/

/-- One iteration of the tweak loop in `apply_tweaks`: when the tweak name and
value are truthy and the name is a key of the template, assign
`template_data[tweak_name]["value"] = tweak_value`; the item assignment raises
`TypeError` when the template entry is not a dictionary. -/
def tweakStep (acc : List (String × Json)) (p : String × Json) :
    Except PyError (List (String × Json)) :=
  if p.1 != "" && jtruthy p.2 && (acc.lookup p.1).isSome then
    match acc.lookup p.1 with
    | some (.obj ekvs) => .ok (setKey acc p.1 (.obj (setKey ekvs "value" p.2)))
    | _ => .error (.typeError "object does not support item assignment")
  else
    .ok acc

/-- The tweak loop of `apply_tweaks` over the template dictionary. -/
def tweakTemplate (tkvs ntkvs : List (String × Json)) :
    Except PyError (List (String × Json)) :=
  foldlMExcept tweakStep tkvs ntkvs

/-- `apply_tweaks(node, node_tweaks)` from `process.py`: reads
`node.get("data", {}).get("node", {}).get("template")`; when that is not a
dictionary, warns and returns the node unchanged; otherwise iterates over
`node_tweaks.items()` (raising `AttributeError` when `node_tweaks` is not a
dictionary) and assigns the tweaked values in place.  In this functional
embedding the mutated node is returned. -/
def apply_tweaks (node node_tweaks : Json) : Except PyError Json := do
  let d1 ← pyGetD node "data" (.obj [])
  let d2 ← pyGetD d1 "node" (.obj [])
  let tmpl ← pyGetOpt d2 "template"
  match tmpl with
  | .obj tkvs =>
    match node_tweaks with
    | .obj ntkvs => do
      let tkvs' ← tweakTemplate tkvs ntkvs
      .ok (jSetObjKey node "data" (jSetObjKey d1 "node"
            (jSetObjKey d2 "template" (.obj tkvs'))))
    | _ => .error (.attributeError "items")
  | _ => .ok node

/-! ## `process_tweaks` -/

/-- The body of the node loop in `process_tweaks`: nodes that are dictionaries
with a string `id` and a truthy tweak entry get `apply_tweaks`; all other
nodes are skipped with a warning. -/
def tweakNode (tweaks node : Json) : Except PyError Json :=
  match node with
  | .obj kvs =>
    match kvs.lookup "id" with
    | some (.str node_id) =>
      match jlookup tweaks node_id with
      | some tv => if jtruthy tv then apply_tweaks node tv else .ok node
      | none => .ok node
    | _ => .ok node
  | _ => .ok node

/-- Write the (mutated) node list back to the location `validate_input`
selected it from: under `data.nodes` when that value was truthy, else under
the top-level `nodes` key.  This mirrors the in-place mutation of the Python
code, which updates the very list object that `validate_input` returned. -/
def replaceNodes (graph_data newNodes : Json) : Json :=
  let dataVal := (jlookup graph_data "data").getD (.obj [])
  let dataNodes := (jlookup dataVal "nodes").getD .null
  if jtruthy dataNodes then
    jSetObjKey graph_data "data" (jSetObjKey dataVal "nodes" newNodes)
  else
    jSetObjKey graph_data "nodes" newNodes

/-- `process_tweaks(graph_data, tweaks)` from `process.py`. -/
def process_tweaks (graph_data tweaks : Json) : Except PyError Json := do
  let nodes ← validate_input graph_data tweaks
  let nodes' ← mapMExcept (tweakNode tweaks) nodes
  .ok (replaceNodes graph_data (.arr nodes'))

/-! ## The pipeline handle (`langchain_object`)

The duck-typed langchain object is embedded as a record.  Each attribute that
the Python code probes with `hasattr` is an `Option` field: `none` plays the
role of an absent attribute, and reading an absent attribute without a
`hasattr` guard raises `AttributeError`, as in Python.  The code treats a
missing `memory` attribute and `memory is None` identically (both guards
appear together on every access), so the two states are collapsed into one
`Option`. -/

/-- `langchain.schema.AgentAction`, as used by `format_actions`. -/
structure AgentAction where
  tool : String
  tool_input : String
  log : String
deriving Repr, DecidableEq

/-- A memory attribute exposing its `memory_key` string. -/
structure MemoryRef where
  memory_key : String
deriving Repr, DecidableEq

/-- A prompt attribute exposing its `input_variables` list. -/
structure PromptRef where
  input_variables : List String
deriving Repr, DecidableEq

/-- The structured input built by `get_result_and_thought`: Python `None`, a
one-entry dictionary `\x7bkey: message\x7d`, or the bare message string. -/
inductive ChatInput where
  | nullInput
  | keyed (key : String) (message : String)
  | direct (message : String)
deriving Repr, DecidableEq

/-- The value returned by invoking the langchain object: either a dictionary
(whose optional `intermediate_steps` entry is a list of
`(AgentAction, answer)` pairs and whose other entries are JSON values) or any
other value. -/
inductive LCOutput where
  | dict (steps : Option (List (AgentAction × String)))
      (entries : List (String × Json))
  | plain (v : Json)

/-- The langchain object.  `call` is the primary invocation protocol
(`langchain_object(chat_input)`) and `run` the secondary one
(`langchain_object.run(chat_input)`); each returns the text it printed to
stdout together with its outcome. -/
structure LCObject where
  memory : Option MemoryRef
  verbose : Option Bool
  return_intermediate_steps : Option Bool
  input_keys : Option (List String)
  input_variables : Option (List String)
  prompt : Option PromptRef
  output_keys : Option (List String)
  call : ChatInput → String × Except PyError LCOutput
  run : ChatInput → String × Except PyError LCOutput

/-! ## `fix_memory_inputs` -/

/-- Modelled from the spec: `update_memory_keys` is imported from
`langflow.interface.run`, which is not part of the analyzed source.  Section
4.3 of the specification says the reconciler rewrites the handle's memory key
to the derived replacement key. -/
def update_memory_keys (o : LCObject) (k : String) : LCObject :=
  { o with memory := o.memory.map (fun _ => ⟨k⟩) }

/-- The type of the external `get_memory_key` collaborator
(`deriveMemoryKey(handle) -> key | null` in the specification); it is a
parameter of the embedding. -/
def GmkFn : Type := LCObject → Option String

/-- Lines 37-39 of `process.py`: ask the external `get_memory_key`
collaborator for a possible new memory key and rewrite the handle's memory
key when one is found. -/
def derive_and_update (gmk : GmkFn) (o : LCObject) : Except PyError LCObject :=
  match gmk o with
  | some k => .ok (update_memory_keys o k)
  | none => .ok o

/-- `fix_memory_inputs(langchain_object)` from `process.py`, continued: the
whole function.  Returns immediately when there is no memory; the `try`
block reads `input_variables`, whose absence raises the `AttributeError`
that the `except` clause catches; the fallback reads
`prompt.input_variables` when a prompt exists and otherwise `input_keys`,
whose absence raises an uncaught `AttributeError`; when the memory key is
not among the inputs, fall through to `derive_and_update`. -/
def fix_memory_inputs (gmk : GmkFn) (o : LCObject) : Except PyError LCObject :=
  match o.memory with
  | none => .ok o
  | some mem =>
    match o.input_variables with
    | some ivs =>
      if mem.memory_key ∈ ivs then .ok o else derive_and_update gmk o
    | none =>
      match o.prompt with
      | some pr =>
        if mem.memory_key ∈ pr.input_variables then .ok o
        else derive_and_update gmk o
      | none =>
        match o.input_keys with
        | some ks =>
          if mem.memory_key ∈ ks then .ok o else derive_and_update gmk o
        | none => .error (.attributeError "input_keys")

/-! ## `format_actions` -/

/-- Substring containment on character lists, by structural recursion. -/
def containsSub (pat : List Char) : List Char → Bool
  | [] => pat.isEmpty
  | c :: tl => pat.isPrefixOf (c :: tl) || containsSub pat tl

/-- Python `pat in s` for strings: substring containment. -/
def strContains (s pat : String) : Bool :=
  containsSub pat.data s.data

/-- The lines appended for one `(action, answer)` pair by the loop body of
`format_actions`. -/
def action_lines (action : AgentAction) (answer : String) : List String :=
  ["Log: " ++ action.log] ++
  (if !strContains action.log "Action" && !strContains action.log "Action Input"
   then ["Tool: " ++ action.tool, "Tool Input: " ++ action.tool_input]
   else []) ++
  ["Answer: " ++ answer, ""]

/-- `format_actions(actions)` from `process.py`: the loop accumulates an
`output` list of lines and the result joins them with newlines. -/
def format_actions (actions : List (AgentAction × String)) : String :=
  String.intercalate "\n"
    (actions.foldl (fun output p => output ++ action_lines p.1 p.2) [])

/-! ## `get_result_and_thought` -/

/-- Line 61-62 of `process.py`: force `verbose = True` when the attribute
exists. -/
def set_verbose (o : LCObject) : LCObject :=
  if o.verbose.isSome then { o with verbose := some true } else o

/-- Line 75-79 of `process.py`: force `return_intermediate_steps = False`
when the attribute exists. -/
def disable_steps (o : LCObject) : LCObject :=
  if o.return_intermediate_steps.isSome then
    { o with return_intermediate_steps := some false }
  else o

/-- Lines 64-66 of `process.py`: the memory key, or the empty string when
there is no memory. -/
def memory_key_of (o : LCObject) : String :=
  match o.memory with
  | some m => m.memory_key
  | none => ""

/-- Lines 63 and 68-73 of `process.py`: starting from `None`, the loop over
`input_keys` overwrites `chat_input` with `\x7bkey: message\x7d` for every key
that is neither the memory key nor `"chat_history"`; without an `input_keys`
attribute the message itself is the input. -/
def chat_input_of (o : LCObject) (message : String) : ChatInput :=
  match o.input_keys with
  | some ks =>
    ks.foldl
      (fun ci key =>
        if key != memory_key_of o && key != "chat_history" then
          .keyed key message
        else ci)
      .nullInput
  | none => .direct message

/-- Lines 83-92 of `process.py`: call the object inside the
stdout-capturing scope; on a `ValueError` retry once via `run` with the same
input (the capture buffer keeps the text printed by both attempts); any other
error propagates. -/
def invoke_with_fallback (o : LCObject) (ci : ChatInput) :
    String × Except PyError LCOutput :=
  match o.call ci with
  | (p1, .ok out) => (p1, .ok out)
  | (p1, .error (.valueError _)) =>
    match o.run ci with
    | (p2, res) => (p1 ++ p2, res)
  | (p1, .error e) => (p1, .error e)

/-- Lines 94-96 of `process.py`: `output.get("intermediate_steps", [])` when
the output is a dictionary, else `[]`. -/
def steps_of : LCOutput → List (AgentAction × String)
  | .dict steps _ => steps.getD []
  | .plain _ => []

/-- Lines 98-102 of `process.py`: `output.get(output_keys[0])` when the
output is a dictionary (`AttributeError` when the attribute is absent,
`IndexError` when it is empty, `None` when the key is missing from the
output), else the output itself. -/
def primary_result (o : LCObject) (out : LCOutput) : Except PyError Json :=
  match out with
  | .plain v => .ok v
  | .dict _ entries =>
    match o.output_keys with
    | none => .error (.attributeError "output_keys")
    | some [] => .error (.indexError "list index out of range")
    | some (k :: _) => .ok ((entries.lookup k).getD .null)

/-- Lines 81-106 of `process.py`, after the structured input has been built:
reconcile memory, invoke with fallback, then normalize the output into the
`(result, thought)` pair. -/
def run_with_input (gmk : GmkFn) (o2 : LCObject) (ci : ChatInput) :
    Except PyError (Json × String) := do
  let o3 ← fix_memory_inputs gmk o2
  let (printed, res) := invoke_with_fallback o3 ci
  let out ← res
  let intermediate_steps := steps_of out
  let result ← primary_result o3 out
  let thought :=
    if intermediate_steps.isEmpty then printed
    else format_actions intermediate_steps
  .ok (result, thought)

/-- The whole `try` block of `get_result_and_thought` (lines 60-106). -/
def get_result_inner (gmk : GmkFn) (o : LCObject) (message : String) :
    Except PyError (Json × String) :=
  run_with_input gmk (disable_steps (set_verbose o))
    (chat_input_of (set_verbose o) message)

/-- Lines 108-109 of `process.py`: `except Exception as exc: raise
ValueError(f"Error: \x7bstr(exc)\x7d") from exc`. -/
def wrap_execution_error (r : Except PyError (Json × String)) :
    Except PyError (Json × String) :=
  match r with
  | .ok x => .ok x
  | .error e => .error (.valueError ("Error: " ++ pyStr e))

/-- `get_result_and_thought(langchain_object, message)` from `process.py`. -/
def get_result_and_thought (gmk : GmkFn) (o : LCObject) (message : String) :
    Except PyError (Json × String) :=
  wrap_execution_error (get_result_inner gmk o message)

/-! ## `load_flow_from_json` -/

/-- The runtime type of the `input` argument of `load_flow_from_json`: a
`str`/`Path`, a `dict`, or some other value (a number, `None`, ...). -/
inductive FlowSource where
  | path (p : String)
  | dictVal (kvs : List (String × Json))
  | intVal (n : Int)
  | noneVal

/-- The value returned by `load_flow_from_json`: the unbuilt
`Graph(nodes, edges)` object, or the built langchain object. -/
inductive LoadResult where
  | graph (nodes edges : Json)
  | handle (o : LCObject)

/-- `load_flow_from_json(input, tweaks, build)` from `process.py`.  `files`
abstracts `json.load(open(path))` and `buildFn` abstracts the external
compiler `Graph(nodes, edges).build()`. -/
def load_flow_from_json (files : String → Json) (gmk : GmkFn)
    (buildFn : Json → Json → Except PyError LCObject)
    (input : FlowSource) (tweaks : Option Json) (build : Bool) :
    Except PyError LoadResult := do
  let flow_graph ←
    match input with
    | .path p => .ok (files p)
    | .dictVal kvs => .ok (Json.obj kvs)
    | .intVal _ =>
      .error (.typeError
        "Input must be either a file path (str) or a JSON object (dict)")
    | .noneVal =>
      .error (.typeError
        "Input must be either a file path (str) or a JSON object (dict)")
  let graph_data ← pySubscript flow_graph "data"
  let graph_data ←
    match tweaks with
    | some tw => process_tweaks graph_data tw
    | none => .ok graph_data
  let nodes ← pySubscript graph_data "nodes"
  let edges ← pySubscript graph_data "edges"
  if build then do
    let lco ← buildFn nodes edges
    let lco := set_verbose lco
    let lco := disable_steps lco
    let lco ← fix_memory_inputs gmk lco
    .ok (.handle lco)
  else
    .ok (.graph nodes edges)

/-! ## Specification-side definitions

These definitions follow the wording of the specification and of the claims;
the theorems below compare them with the source translations above. -/

/-- The block of lines the specification prescribes for one
`(action, answer)` pair: the log line; tool name and tool input lines only
when the log does not already mention an action or action-input marker; the
answer line; a blank separator line. -/
def traceBlockSpec (p : AgentAction × String) : List String :=
  if strContains p.1.log "Action" || strContains p.1.log "Action Input" then
    ["Log: " ++ p.1.log, "Answer: " ++ p.2, ""]
  else
    ["Log: " ++ p.1.log, "Tool: " ++ p.1.tool,
     "Tool Input: " ++ p.1.tool_input, "Answer: " ++ p.2, ""]

/-- The node-collection value that `validate_input` selects: `data.nodes`
when that value is truthy, else the top-level `nodes` value. -/
def selected_nodes_val (gd : Json) : Json :=
  let dataVal := (jlookup gd "data").getD (.obj [])
  let dataNodes := (jlookup dataVal "nodes").getD .null
  if jtruthy dataNodes then dataNodes
  else (jlookup gd "nodes").getD .null

/-- The string `id` of a node, when the node is a dictionary carrying one. -/
def node_id_of (node : Json) : Option String :=
  match node with
  | .obj kvs =>
    match kvs.lookup "id" with
    | some (.str s) => some s
    | _ => none
  | _ => none

/-- The template dictionary of a node, at the location `apply_tweaks` reads
it from (`node.data.node.template`), when it is a dictionary. -/
def node_template (node : Json) : Option (List (String × Json)) :=
  let d1 := (jlookup node "data").getD (.obj [])
  let d2 := (jlookup d1 "node").getD (.obj [])
  match (jlookup d2 "template").getD .null with
  | .obj tkvs => some tkvs
  | _ => none

/-- The descriptor stored in a node's template under a parameter name. -/
def template_entry (node : Json) (name : String) : Option Json :=
  (node_template node).bind (fun tkvs => tkvs.lookup name)

/-- The `value` field of a node's template descriptor for a parameter. -/
def template_value (node : Json) (name : String) : Option Json :=
  (template_entry node name).bind (fun e => jlookup e "value")

/-- Every entry of the template dictionary is itself a dictionary (so that
`template_data[name]["value"] = v` cannot raise). -/
def allObjEntries (tkvs : List (String × Json)) : Bool :=
  tkvs.all (fun p => isObj p.2)

/-- A node `process_tweaks` can process without raising, whatever tweaks are
given: either it fails the dictionary-with-string-id check (and is skipped
with a warning), or the `data` / `data.node` values read by `apply_tweaks`
are dictionaries (or absent) and every template descriptor is a
dictionary. -/
def wellNode (node : Json) : Bool :=
  match node with
  | .obj kvs =>
    match kvs.lookup "id" with
    | some (.str _) =>
      match (kvs.lookup "data").getD (.obj []) with
      | .obj d1kvs =>
        match (d1kvs.lookup "node").getD (.obj []) with
        | .obj d2kvs =>
          match (d2kvs.lookup "template").getD .null with
          | .obj tkvs => allObjEntries tkvs
          | _ => true
        | _ => false
      | _ => false
    | _ => true
  | _ => true

/-- The keys of an association list are pairwise distinct (always true of an
actual Python `dict`). -/
def nodupKeys (kvs : List (String × Json)) : Bool :=
  decide (kvs.map Prod.fst).Nodup

/-- A tweak map of the declared type `Dict[str, Dict[str, Any]]`: a
dictionary whose values are dictionaries. -/
def tweak_map_shaped (tweaks : Json) : Bool :=
  match tweaks with
  | .obj kvs =>
    kvs.all (fun p =>
      match p.2 with
      | .obj n => nodupKeys n
      | _ => false)
  | _ => false

/-- The pure counterpart of `tweakStep` (total where `tweakStep` would raise
`TypeError` on a non-dictionary descriptor). -/
def tweak_step_pure (acc : List (String × Json)) (p : String × Json) :
    List (String × Json) :=
  if p.1 != "" && jtruthy p.2 && (acc.lookup p.1).isSome then
    match acc.lookup p.1 with
    | some (.obj ekvs) => setKey acc p.1 (.obj (setKey ekvs "value" p.2))
    | _ => acc
  else acc

/-- The pure counterpart of `tweakTemplate`. -/
def tweak_template_pure (tkvs ntkvs : List (String × Json)) :
    List (String × Json) :=
  ntkvs.foldl tweak_step_pure tkvs

/-- The pure counterpart of `apply_tweaks`. -/
def apply_tweaks_pure (node tv : Json) : Json :=
  let d1 := (jlookup node "data").getD (.obj [])
  let d2 := (jlookup d1 "node").getD (.obj [])
  match (jlookup d2 "template").getD .null, tv with
  | .obj tkvs, .obj ntkvs =>
    jSetObjKey node "data" (jSetObjKey d1 "node"
      (jSetObjKey d2 "template" (.obj (tweak_template_pure tkvs ntkvs))))
  | _, _ => node

/-- The pure counterpart of `tweakNode`. -/
def tweak_node_pure (tweaks node : Json) : Json :=
  match node with
  | .obj kvs =>
    match kvs.lookup "id" with
    | some (.str node_id) =>
      match jlookup tweaks node_id with
      | some tv => if jtruthy tv then apply_tweaks_pure node tv else node
      | none => node
    | _ => node
  | _ => node

/-! ## Concrete sample data for witnesses and counterexamples -/

/-- A `get_memory_key` collaborator that never finds a replacement key. -/
def gmk_none : GmkFn := fun _ => none

/-- A `get_memory_key` collaborator that always proposes `"question"`. -/
def gmk_question : GmkFn := fun _ => some "question"

/-- A file system in which every file parses to `None`. -/
def files_null : String → Json := fun _ => .null

/-- A compiler collaborator that always fails. -/
def build_none : Json → Json → Except PyError LCObject :=
  fun _ _ => .error (.valueError "no compiler")

/-- An invocation that prints nothing and raises `ValueError`. -/
def sample_call_fail : ChatInput → String × Except PyError LCOutput :=
  fun _ => ("", .error (.valueError "x"))

/-- A handle whose primary invocation raises `TypeError` (a non-value-shaped
error). -/
def err_handle : LCObject :=
  ⟨none, none, none, none, none, none, none,
   fun _ => ("", .error (.typeError "boom")), sample_call_fail⟩

/-- A handle whose primary invocation raises `ValueError` after printing
`"p1"` and whose `run` invocation prints `"p2"` and succeeds. -/
def fallback_handle : LCObject :=
  ⟨none, none, none, none, none, none, none,
   fun _ => ("p1", .error (.valueError "bad")),
   fun _ => ("p2", .ok (.plain (.str "ok")))⟩

/-- A memoryless handle with the single input key `question`. -/
def question_handle : LCObject :=
  ⟨none, none, none, some ["question"], none, none, none,
   sample_call_fail, sample_call_fail⟩

/-- A memoryless handle with two eligible input keys. -/
def two_keys_handle : LCObject :=
  ⟨none, none, none, some ["a", "b"], none, none, none,
   sample_call_fail, sample_call_fail⟩

/-- A handle whose every input key is the memory key or `chat_history`. -/
def memory_only_handle : LCObject :=
  ⟨some ⟨"hist"⟩, none, none, some ["hist", "chat_history"], none, none, none,
   sample_call_fail, sample_call_fail⟩

/-- A handle with a memory but none of `input_variables`, `prompt` and
`input_keys`. -/
def bare_memory_handle : LCObject :=
  ⟨some ⟨"history"⟩, none, none, none, none, none, none,
   sample_call_fail, sample_call_fail⟩

/-- A handle whose memory key is absent from its `input_variables`, so that
reconciliation rewrites it. -/
def stale_memory_handle : LCObject :=
  ⟨some ⟨"hist"⟩, none, none, none, some ["question"], none, none,
   sample_call_fail, sample_call_fail⟩

/-- `stale_memory_handle` after its memory key has been rewritten to
`question`. -/
def fixed_memory_handle : LCObject :=
  ⟨some ⟨"question"⟩, none, none, none, some ["question"], none, none,
   sample_call_fail, sample_call_fail⟩

/-- A node with one template parameter `temperature` whose value is `1`. -/
def temp_node : Json :=
  .obj [("id", .str "n1"),
        ("data", .obj [("node", .obj [("template",
          .obj [("temperature", .obj [("value", .num 1)])])])])]

/-- A graph description holding `temp_node`. -/
def temp_graph : Json := .obj [("nodes", .arr [temp_node])]

/-- A tweak map assigning the falsy value `0` to `temperature` of `n1`. -/
def falsy_tweaks : Json := .obj [("n1", .obj [("temperature", .num 0)])]

/-- A tweak map assigning the truthy value `9` to `temperature` of `n1`. -/
def truthy_tweaks : Json := .obj [("n1", .obj [("temperature", .num 9)])]

/-- A graph description whose `data.nodes` is present but empty (falsy)
while a different top-level `nodes` list is also present. -/
def falsy_nodes_graph : Json :=
  .obj [("data", .obj [("nodes", .arr [])]),
        ("nodes", .arr [.obj [("id", .str "a")]])]

end Langflow

namespace Langflow

theorem lookup_setKey_self (k : String) (v : Json) :
    ∀ kvs : List (String × Json), (setKey kvs k v).lookup k = some v := by
  intro kvs
  induction kvs with
  | nil => simp [setKey, List.lookup]
  | cons p tl ih =>
    obtain ⟨a, b⟩ := p
    by_cases h : a == k
    · have : a = k := by simpa using h
      simp [setKey, this, List.lookup_cons]
    · simp only [setKey] at *
      rw [if_neg (by simpa using h)]
      rw [List.lookup_cons]
      have hne : a ≠ k := by simpa using h
      have : (k == a) = false := by
        rw [beq_eq_false_iff_ne]
        exact fun hh => hne hh.symm
      simp [this, ih]

theorem lookup_setKey_ne (k k' : String) (v : Json) (h : k' ≠ k) :
    ∀ kvs : List (String × Json),
      (setKey kvs k v).lookup k' = kvs.lookup k' := by
  intro kvs
  have hkk : (k' == k) = false := by simpa using h
  induction kvs with
  | nil => simp [setKey, List.lookup, hkk]
  | cons p tl ih =>
    obtain ⟨a, b⟩ := p
    by_cases ha : a == k
    · have hak : a = k := by simpa using ha
      simp only [setKey, hak]
      rw [if_pos (by simp)]
      rw [List.lookup_cons, List.lookup_cons]
      simp [hkk]
    · simp only [setKey]
      rw [if_neg (by simpa using ha)]
      rw [List.lookup_cons, List.lookup_cons]
      cases hk'a : (k' == a) with
      | true => simp
      | false => simp [ih]

theorem lookup_mem {kvs : List (String × Json)} {k : String} {v : Json}
    (h : kvs.lookup k = some v) : (k, v) ∈ kvs := by
  induction kvs with
  | nil => simp [List.lookup] at h
  | cons p tl ih =>
    obtain ⟨a, b⟩ := p
    rw [List.lookup_cons] at h
    cases hka : (k == a) with
    | true =>
      have : k = a := by simpa using hka
      rw [hka] at h
      simp only at h
      cases h
      exact this ▸ List.mem_cons_self _ _
    | false =>
      rw [hka] at h
      simp only at h
      exact List.mem_cons_of_mem _ (ih h)

theorem mem_setKey {kvs : List (String × Json)} {k : String} {v q : Json}
    {k' : String} (h : (k', q) ∈ setKey kvs k v) :
    (k', q) ∈ kvs ∨ q = v := by
  induction kvs with
  | nil => simp [setKey] at h; right; exact h.2
  | cons p tl ih =>
    obtain ⟨a, b⟩ := p
    by_cases ha : a == k
    · have hak : a = k := by simpa using ha
      simp only [setKey, hak] at h
      rw [if_pos (by simp)] at h
      rcases List.mem_cons.mp h with h1 | h2
      · right; exact (Prod.mk.injEq .. ▸ h1).2
      · left; exact List.mem_cons_of_mem _ h2
    · simp only [setKey] at h
      rw [if_neg (by simpa using ha)] at h
      rcases List.mem_cons.mp h with h1 | h2
      · left; exact h1 ▸ List.mem_cons_self _ _
      · rcases ih h2 with h3 | h4
        · left; exact List.mem_cons_of_mem _ h3
        · right; exact h4


theorem foldl_append_eq_join {α : Type} (f : α → List String) :
    ∀ (l : List α) (acc : List String),
      l.foldl (fun out p => out ++ f p) acc = acc ++ (l.map f).flatten := by
  intro l
  induction l with
  | nil => simp
  | cons x xs ih => intro acc; simp [ih, List.append_assoc]

theorem action_lines_eq_traceBlockSpec (p : AgentAction × String) :
    action_lines p.1 p.2 = traceBlockSpec p := by
  unfold action_lines traceBlockSpec
  cases h1 : strContains p.1.log "Action" <;>
    cases h2 : strContains p.1.log "Action Input" <;> simp [h1, h2]

/-- C8: `format_actions` is pure (a total function in this embedding), maps
the empty list to the empty string, and for each pair emits the log line,
the tool and tool-input lines only when the log mentions no action or
action-input marker, the answer line and a blank separator, all joined with
newlines. -/
theorem format_actions_trace_spec :
    format_actions [] = "" ∧
    ∀ actions : List (AgentAction × String),
      format_actions actions =
        String.intercalate "\n" (actions.map traceBlockSpec).flatten := by
  constructor
  · rfl
  · intro actions
    unfold format_actions
    rw [foldl_append_eq_join]
    congr 1
    simp only [List.nil_append]
    congr 1
    exact List.map_congr_left (fun p _ => action_lines_eq_traceBlockSpec p)


theorem bindOk {ep a b : Type} (x : a) (f : a → Except ep b) :
    (Except.ok x : Except ep a) >>= f = f x := rfl

theorem bindErr {ep a b : Type} (e : ep) (f : a → Except ep b) :
    (Except.error e : Except ep a) >>= f = (.error e : Except ep b) := rfl

theorem set_verbose_memory (o : LCObject) :
    (set_verbose o).memory = o.memory := by
  unfold set_verbose; split <;> rfl

theorem set_verbose_input_keys (o : LCObject) :
    (set_verbose o).input_keys = o.input_keys := by
  unfold set_verbose; split <;> rfl

theorem memory_key_of_set_verbose (o : LCObject) :
    memory_key_of (set_verbose o) = memory_key_of o := by
  unfold memory_key_of
  rw [set_verbose_memory]

theorem chat_input_of_set_verbose (o : LCObject) (message : String) :
    chat_input_of (set_verbose o) message = chat_input_of o message := by
  unfold chat_input_of
  rw [set_verbose_input_keys, memory_key_of_set_verbose]

/-- C2: any error raised inside the steps of `get_result_and_thought` is
caught and re-raised as a single `ValueError` wrapping the original
failure's message, so a caller observes exactly one error shape. -/
theorem get_result_and_thought_single_error_shape (gmk : GmkFn) (o : LCObject)
    (message : String) (e : PyError)
    (h : get_result_and_thought gmk o message = .error e) :
    ∃ e0, get_result_inner gmk o message = .error e0 ∧
      e = .valueError ("Error: " ++ pyStr e0) := by
  unfold get_result_and_thought wrap_execution_error at h
  cases hin : get_result_inner gmk o message with
  | ok x => rw [hin] at h; cases h
  | error e0 =>
    rw [hin] at h
    refine ⟨e0, rfl, ?_⟩
    injection h with h1
    exact h1.symm

/-- C2 witness. -/
theorem get_result_and_thought_single_error_shape_witness :
    get_result_and_thought gmk_none err_handle "m" =
      .error (.valueError "Error: boom") ∧
    ∃ e0, get_result_inner gmk_none err_handle "m" = .error e0 ∧
      PyError.valueError "Error: boom" =
        .valueError ("Error: " ++ pyStr e0) :=
  ⟨rfl, get_result_and_thought_single_error_shape gmk_none err_handle "m" _ rfl⟩

/-- C3: when the primary invocation raises a `ValueError`, the Executor
retries exactly once via `run` with the same structured input, and a
successful fallback's return value becomes the output, the first error not
propagating. -/
theorem fallback_invocation_used (gmk : GmkFn) (o o3 : LCObject)
    (message p1 m p2 : String) (v : Json)
    (hfix : fix_memory_inputs gmk (disable_steps (set_verbose o)) = .ok o3)
    (hcall : o3.call (chat_input_of (set_verbose o) message) =
      (p1, .error (.valueError m)))
    (hrun : o3.run (chat_input_of (set_verbose o) message) =
      (p2, .ok (.plain v))) :
    get_result_and_thought gmk o message = .ok (v, p1 ++ p2) := by
  unfold get_result_and_thought get_result_inner wrap_execution_error run_with_input
  rw [hfix, bindOk]
  unfold invoke_with_fallback
  rw [hcall, hrun]
  simp [steps_of, primary_result, bindOk]

/-- C3 witness. -/
theorem fallback_invocation_used_witness :
    fix_memory_inputs gmk_none (disable_steps (set_verbose fallback_handle)) =
      .ok fallback_handle ∧
    fallback_handle.call (chat_input_of (set_verbose fallback_handle) "m") =
      ("p1", .error (.valueError "bad")) ∧
    fallback_handle.run (chat_input_of (set_verbose fallback_handle) "m") =
      ("p2", .ok (.plain (.str "ok"))) ∧
    get_result_and_thought gmk_none fallback_handle "m" =
      .ok (.str "ok", "p1p2") :=
  ⟨rfl, rfl, rfl,
   fallback_invocation_used gmk_none fallback_handle fallback_handle
     "m" "p1" "bad" "p2" (.str "ok") rfl rfl rfl⟩

theorem foldl_keyed_last (msg : String) (p : String → Bool) :
    ∀ (ks : List String) (ci : ChatInput),
      ks.foldl (fun ci key => if p key then ChatInput.keyed key msg else ci)
          ci =
        match (ks.filter p).getLast? with
        | some k => ChatInput.keyed k msg
        | none => ci := by
  intro ks
  induction ks with
  | nil => intro ci; rfl
  | cons k ks ih =>
    intro ci
    rw [List.foldl_cons, ih]
    by_cases hk : p k
    · simp only [List.filter_cons, hk, if_pos]
      cases hf : ks.filter p with
      | nil => simp [hk]
      | cons a l =>
        simp only [List.getLast?_cons_cons]
        cases hg : (a :: l).getLast? with
        | none => simp at hg
        | some x => simp
    · simp only [List.filter_cons, hk]
      simp [hk]

theorem chat_input_of_eq_last (o : LCObject) (message : String)
    (ks : List String) (hks : o.input_keys = some ks) :
    chat_input_of o message =
      match (ks.filter (fun key =>
          key != memory_key_of o && key != "chat_history")).getLast? with
      | some k => ChatInput.keyed k message
      | none => ChatInput.nullInput := by
  unfold chat_input_of
  rw [hks]
  exact foldl_keyed_last message _ ks .nullInput

/-- C4: with declared input keys, the Executor wraps the message under the
single key that is neither the memory key nor `chat_history`; without an
`input_keys` attribute the message itself is passed as the input; a
memoryless handle with single input key `question` yields
`keyed "question" "hello"` for the message `"hello"`. -/
theorem structured_input_selection (o : LCObject) (message : String) :
    (∀ ks k, o.input_keys = some ks →
      ks.filter (fun key =>
        key != memory_key_of o && key != "chat_history") = [k] →
      chat_input_of o message = .keyed k message) ∧
    (o.input_keys = none → chat_input_of o message = .direct message) ∧
    (o.memory = none → o.input_keys = some ["question"] →
      chat_input_of o "hello" = .keyed "question" "hello") := by
  refine ⟨?_, ?_, ?_⟩
  · intro ks k hks hf
    rw [chat_input_of_eq_last o message ks hks, hf]
    simp
  · intro h
    unfold chat_input_of
    rw [h]
  · intro hm hks
    rw [chat_input_of_eq_last o "hello" _ hks]
    have hmk : memory_key_of o = "" := by unfold memory_key_of; rw [hm]
    simp [hmk]

/-- C4 witness. -/
theorem structured_input_selection_witness :
    question_handle.memory = none ∧
    question_handle.input_keys = some ["question"] ∧
    chat_input_of question_handle "hello" = .keyed "question" "hello" :=
  ⟨rfl, rfl,
   (structured_input_selection question_handle "hello").2.2 rfl rfl⟩

/-- C10: with several eligible input keys the message is wrapped under the
last one in declaration order; when every declared key is the memory key or
`chat_history` the structured input stays `None` and `None` is what flows
into the invocation step. -/
theorem last_key_selected_and_none_passed (gmk : GmkFn) (o : LCObject)
    (message : String) (ks : List String) :
    (∀ l k, o.input_keys = some ks →
      ks.filter (fun key =>
        key != memory_key_of o && key != "chat_history") = l ++ [k] →
      chat_input_of o message = .keyed k message) ∧
    (o.input_keys = some ks →
      (∀ key ∈ ks, key = memory_key_of o ∨ key = "chat_history") →
      chat_input_of o message = .nullInput ∧
      get_result_and_thought gmk o message =
        wrap_execution_error
          (run_with_input gmk (disable_steps (set_verbose o)) .nullInput)) := by
  constructor
  · intro l k hks hf
    rw [chat_input_of_eq_last o message ks hks, hf, List.getLast?_concat]
  · intro hks hall
    have hfe : ks.filter (fun key =>
        key != memory_key_of o && key != "chat_history") = [] := by
      rw [List.filter_eq_nil_iff]
      intro key hmem
      rcases hall key hmem with h1 | h1 <;> simp [h1]
    have hci : chat_input_of o message = .nullInput := by
      rw [chat_input_of_eq_last o message ks hks, hfe]
      rfl
    refine ⟨hci, ?_⟩
    unfold get_result_and_thought get_result_inner
    rw [chat_input_of_set_verbose, hci]

/-- C10 witness. -/
theorem last_key_selected_and_none_passed_witness :
    (two_keys_handle.input_keys = some ["a", "b"] ∧
      chat_input_of two_keys_handle "m" = .keyed "b" "m") ∧
    (memory_only_handle.input_keys = some ["hist", "chat_history"] ∧
      chat_input_of memory_only_handle "m" = .nullInput ∧
      get_result_and_thought gmk_none memory_only_handle "m" =
        wrap_execution_error
          (run_with_input gmk_none
            (disable_steps (set_verbose memory_only_handle)) .nullInput)) :=
  ⟨⟨rfl, (last_key_selected_and_none_passed gmk_none two_keys_handle "m"
      ["a", "b"]).1 ["a"] "b" rfl rfl⟩,
   ⟨rfl, (last_key_selected_and_none_passed gmk_none memory_only_handle "m"
      ["hist", "chat_history"]).2 rfl (by decide)⟩⟩

theorem update_memory_keys_input_variables (o : LCObject) (k : String) :
    (update_memory_keys o k).input_variables = o.input_variables := rfl

theorem update_memory_keys_prompt (o : LCObject) (k : String) :
    (update_memory_keys o k).prompt = o.prompt := rfl

theorem update_memory_keys_input_keys (o : LCObject) (k : String) :
    (update_memory_keys o k).input_keys = o.input_keys := rfl

theorem update_memory_keys_memory (o : LCObject) (k : String)
    (mem : MemoryRef) (h : o.memory = some mem) :
    (update_memory_keys o k).memory = some ⟨k⟩ := by
  unfold update_memory_keys
  simp [h]

theorem update_update (o : LCObject) (k : String) :
    update_memory_keys (update_memory_keys o k) k = update_memory_keys o k := by
  unfold update_memory_keys
  simp only [Option.map_map]
  rfl

theorem derive_and_update_cases (gmk : GmkFn) (o : LCObject) :
    ∃ o', derive_and_update gmk o = .ok o' ∧
      (o' = o ∨ ∃ k, gmk o = some k ∧ o' = update_memory_keys o k) := by
  unfold derive_and_update
  cases hg : gmk o with
  | none => exact ⟨o, rfl, Or.inl rfl⟩
  | some k => exact ⟨update_memory_keys o k, rfl, Or.inr ⟨k, rfl, rfl⟩⟩

/-- C6 counterexample: a handle with a memory but none of the
`input_variables`, `prompt` and `input_keys` attributes makes
`fix_memory_inputs` raise `AttributeError` from inside its `except` clause,
so reconciliation is not failure-free by itself. -/
theorem fix_memory_inputs_can_raise :
    fix_memory_inputs gmk_none bare_memory_handle =
      .error (.attributeError "input_keys") := rfl

/-- C6 (amended): provided the handle has no memory or declares at least one
of `input_variables`, `prompt` or `input_keys`, memory reconciliation never
raises: it is an immediate no-op without a memory, and otherwise it either
leaves the handle unchanged or rewrites its memory key to the externally
derived one. -/
theorem fix_memory_inputs_safe (gmk : GmkFn) (o : LCObject)
    (h : o.memory = none ∨ o.input_variables.isSome = true ∨
      o.prompt.isSome = true ∨ o.input_keys.isSome = true) :
    (o.memory = none → fix_memory_inputs gmk o = .ok o) ∧
    ∃ o', fix_memory_inputs gmk o = .ok o' ∧
      (o' = o ∨ ∃ k, gmk o = some k ∧ o' = update_memory_keys o k) := by
  constructor
  · intro hm
    unfold fix_memory_inputs
    rw [hm]
  · unfold fix_memory_inputs
    cases hm : o.memory with
    | none => exact ⟨o, rfl, Or.inl rfl⟩
    | some mem =>
      cases hiv : o.input_variables with
      | some ivs =>
        by_cases hin : mem.memory_key ∈ ivs
        · exact ⟨o, by simp [hin], Or.inl rfl⟩
        · simpa [hin] using derive_and_update_cases gmk o
      | none =>
        cases hp : o.prompt with
        | some pr =>
          by_cases hin : mem.memory_key ∈ pr.input_variables
          · exact ⟨o, by simp [hin], Or.inl rfl⟩
          · simpa [hin] using derive_and_update_cases gmk o
        | none =>
          cases hik : o.input_keys with
          | some ks =>
            by_cases hin : mem.memory_key ∈ ks
            · exact ⟨o, by simp [hin], Or.inl rfl⟩
            · simpa [hin] using derive_and_update_cases gmk o
          | none =>
            rcases h with h | h | h | h
            · rw [hm] at h; cases h
            · rw [hiv] at h; simp at h
            · rw [hp] at h; simp at h
            · rw [hik] at h; simp at h

/-- C6 witness. -/
theorem fix_memory_inputs_safe_witness :
    (stale_memory_handle.memory = none ∨
      stale_memory_handle.input_variables.isSome = true ∨
      stale_memory_handle.prompt.isSome = true ∨
      stale_memory_handle.input_keys.isSome = true) ∧
    ((stale_memory_handle.memory = none →
      fix_memory_inputs gmk_question stale_memory_handle =
        .ok stale_memory_handle) ∧
     ∃ o', fix_memory_inputs gmk_question stale_memory_handle = .ok o' ∧
      (o' = stale_memory_handle ∨
       ∃ k, gmk_question stale_memory_handle = some k ∧
         o' = update_memory_keys stale_memory_handle k)) :=
  ⟨Or.inr (Or.inl rfl),
   fix_memory_inputs_safe gmk_question stale_memory_handle
     (Or.inr (Or.inl rfl))⟩

/-- C7: memory reconciliation is idempotent: a second application returns
the once-reconciled handle unchanged.  The hypothesis renders the
specification's description of the external `get_memory_key` collaborator (a
lookup over the handle's declared inputs, hence insensitive to a rewrite of
the memory key). -/
theorem fix_memory_inputs_idempotent (gmk : GmkFn)
    (hg : ∀ h k, gmk (update_memory_keys h k) = gmk h)
    (o o' : LCObject) (h : fix_memory_inputs gmk o = .ok o') :
    fix_memory_inputs gmk o' = .ok o' := by
  have hsame : fix_memory_inputs gmk o = .ok o' → o' = o →
      fix_memory_inputs gmk o' = .ok o' := by
    intro h1 h2
    subst h2
    exact h1
  have hsecond : ∀ k, gmk o = some k → o.memory.isSome = true →
      o' = update_memory_keys o k → fix_memory_inputs gmk o' = .ok o' := by
    intro k hgk hms ho'
    obtain ⟨mem, hm⟩ := Option.isSome_iff_exists.mp hms
    have hmem' : o'.memory = some ⟨k⟩ := by
      rw [ho']
      exact update_memory_keys_memory o k mem hm
    have hgk' : gmk o' = some k := by rw [ho', hg, hgk]
    have hupd : update_memory_keys o' k = o' := by rw [ho', update_update]
    have hproceed : derive_and_update gmk o' = .ok o' := by
      unfold derive_and_update
      simp only [hgk']
      rw [hupd]
    unfold fix_memory_inputs
    rw [hmem']
    cases hiv : o'.input_variables with
    | some ivs =>
      by_cases hin : MemoryRef.memory_key ⟨k⟩ ∈ ivs
      · simp [hin]
      · simp [hin, hproceed]
    | none =>
      cases hp : o'.prompt with
      | some pr =>
        by_cases hin : MemoryRef.memory_key ⟨k⟩ ∈ pr.input_variables
        · simp [hin]
        · simp [hin, hproceed]
      | none =>
        cases hik : o'.input_keys with
        | some ks =>
          by_cases hin : MemoryRef.memory_key ⟨k⟩ ∈ ks
          · simp [hin]
          · simp [hin, hproceed]
        | none =>
          -- the first run would already have raised in this configuration
          exfalso
          rw [ho', update_memory_keys_input_variables] at hiv
          rw [ho', update_memory_keys_prompt] at hp
          rw [ho', update_memory_keys_input_keys] at hik
          unfold fix_memory_inputs at h
          simp only [hm, hiv, hp, hik] at h
          simp at h
  have hda : derive_and_update gmk o = .ok o' →
      o.memory.isSome = true → fix_memory_inputs gmk o' = .ok o' := by
    intro h1 hms
    unfold derive_and_update at h1
    cases hgk : gmk o with
    | none =>
      rw [hgk] at h1
      injection h1 with h2
      exact hsame h (h2.symm)
    | some k =>
      rw [hgk] at h1
      injection h1 with h2
      exact hsecond k hgk hms h2.symm
  have h0 := h
  unfold fix_memory_inputs at h
  cases hm : o.memory with
  | none =>
    simp only [hm] at h
    injection h with h2
    exact hsame (by unfold fix_memory_inputs; rw [hm, h2]) h2.symm
  | some mem =>
    simp only [hm] at h
    have hms : o.memory.isSome = true := by rw [hm]; rfl
    cases hiv : o.input_variables with
    | some ivs =>
      simp only [hiv] at h
      by_cases hin : mem.memory_key ∈ ivs
      · rw [if_pos hin] at h
        injection h with h2
        exact hsame h0 h2.symm
      · rw [if_neg hin] at h
        exact hda h hms
    | none =>
      simp only [hiv] at h
      cases hp : o.prompt with
      | some pr =>
        simp only [hp] at h
        by_cases hin : mem.memory_key ∈ pr.input_variables
        · rw [if_pos hin] at h
          injection h with h2
          exact hsame h0 h2.symm
        · rw [if_neg hin] at h
          exact hda h hms
      | none =>
        simp only [hp] at h
        cases hik : o.input_keys with
        | some ks =>
          simp only [hik] at h
          by_cases hin : mem.memory_key ∈ ks
          · rw [if_pos hin] at h
            injection h with h2
            exact hsame h0 h2.symm
          · rw [if_neg hin] at h
            exact hda h hms
        | none =>
          simp only [hik] at h
          simp at h

/-- C7 witness: a handle whose stale memory key gets rewritten, after which
a second reconciliation is the identity. -/
theorem fix_memory_inputs_idempotent_witness :
    fix_memory_inputs gmk_question stale_memory_handle =
      .ok fixed_memory_handle ∧
    fix_memory_inputs gmk_question fixed_memory_handle =
      .ok fixed_memory_handle :=
  ⟨rfl,
   fix_memory_inputs_idempotent gmk_question (fun _ _ => rfl)
     stale_memory_handle fixed_memory_handle rfl⟩


/-- C5 counterexample: a document carrying `nodes` and `edges` directly at
top level (no `data` key) is not accepted by `load_flow_from_json`: the
unconditional `flow_graph["data"]` access raises `KeyError`. -/
theorem load_flow_direct_nodes_rejected :
    load_flow_from_json files_null gmk_none build_none
      (.dictVal [("nodes", .arr []), ("edges", .arr [])]) none false =
    .error (.keyError "data") := rfl

/-- C5 (amended): `load_flow_from_json` accepts a file path (read and parsed
as JSON) or an in-memory dictionary, and fails with a `TypeError` — before
the compiler can be reached, whatever `buildFn` does — for any other source
type such as a number or `None`; only documents of shape
`data: (nodes, edges)` are accepted, and a document carrying `nodes` and
`edges` directly at top level fails with `KeyError` on `data`. -/
theorem load_flow_source_types (files : String → Json) (gmk : GmkFn)
    (buildFn : Json → Json → Except PyError LCObject)
    (tweaks : Option Json) (build : Bool) :
    (∀ n : Int,
      load_flow_from_json files gmk buildFn (.intVal n) tweaks build =
        .error (.typeError
          "Input must be either a file path (str) or a JSON object (dict)")) ∧
    (load_flow_from_json files gmk buildFn .noneVal tweaks build =
      .error (.typeError
        "Input must be either a file path (str) or a JSON object (dict)")) ∧
    (∀ kvs : List (String × Json), kvs.lookup "data" = none →
      load_flow_from_json files gmk buildFn (.dictVal kvs) tweaks build =
        .error (.keyError "data")) ∧
    (∀ nodes edges : Json,
      load_flow_from_json files gmk buildFn
        (.dictVal [("data", .obj [("nodes", nodes), ("edges", edges)])])
        none false =
      .ok (.graph nodes edges)) ∧
    (∀ (p : String) (nodes edges : Json),
      files p = .obj [("data", .obj [("nodes", nodes), ("edges", edges)])] →
      load_flow_from_json files gmk buildFn (.path p) none false =
        .ok (.graph nodes edges)) := by
  refine ⟨fun n => rfl, rfl, ?_, ?_, ?_⟩
  · intro kvs hkvs
    unfold load_flow_from_json
    simp only [bindOk, bindErr, pySubscript, hkvs]
  · intro nodes edges
    unfold load_flow_from_json
    simp only [bindOk, pySubscript, List.lookup]
    rfl
  · intro p nodes edges hp
    unfold load_flow_from_json
    simp only [bindOk, hp, pySubscript, List.lookup]
    rfl

/-- C5 witness. -/
theorem load_flow_source_types_witness :
    ([(("nodes" : String), Json.arr []),
      ("edges", Json.arr [])].lookup "data" = none) ∧
    load_flow_from_json files_null gmk_none build_none
      (.dictVal [("nodes", .arr [.str "n"]), ("edges", .arr [])]) none true =
      .error (.keyError "data") ∧
    load_flow_from_json files_null gmk_none build_none (.intVal 5) none true =
      .error (.typeError
        "Input must be either a file path (str) or a JSON object (dict)") ∧
    load_flow_from_json files_null gmk_none build_none
      (.dictVal [("data", .obj [("nodes", .arr []), ("edges", .arr [])])])
      none false =
      .ok (.graph (.arr []) (.arr [])) :=
  ⟨rfl,
   (load_flow_source_types files_null gmk_none build_none none true).2.2.1
     [("nodes", .arr [.str "n"]), ("edges", .arr [])] rfl,
   (load_flow_source_types files_null gmk_none build_none none true).1 5,
   (load_flow_source_types files_null gmk_none build_none none false).2.2.2.1
     (.arr []) (.arr [])⟩

/-- C9 counterexample: `graph_data.data.nodes` is present (an empty, hence
falsy, list) and yet `validate_input` selects the top-level `nodes` list,
because the Python `or` falls through on any falsy value, not only on a
missing one. -/
theorem validate_input_falsy_data_nodes_fallback :
    jlookup ((jlookup falsy_nodes_graph "data").getD (.obj [])) "nodes" =
      some (.arr []) ∧
    validate_input falsy_nodes_graph (.obj []) =
      .ok [.obj [("id", .str "a")]] :=
  ⟨rfl, rfl⟩

/-- C9 (amended): tweak application locates the node collection at
`graph_data.data.nodes` whenever that value is truthy, falling back to
`graph_data.nodes` when it is absent or falsy; when `graph_data` or `tweaks`
is not a dictionary, or when (with `graph_data.data` absent or a dictionary)
the selected value is not a list, it fails with a `ValueError` before any
node is touched — `process_tweaks` propagates that error without producing a
graph. -/
theorem validate_input_selection_spec (gd tw : Json) :
    ((isObj gd = false ∨ isObj tw = false) →
      validate_input gd tw =
        .error (.valueError "graph_data and tweaks should be dictionaries") ∧
      process_tweaks gd tw =
        .error (.valueError "graph_data and tweaks should be dictionaries")) ∧
    (isObj gd = true → isObj tw = true →
      isObj ((jlookup gd "data").getD (.obj [])) = true →
      validate_input gd tw =
        (match selected_nodes_val gd with
         | .arr xs => .ok xs
         | _ => .error (.valueError
             "graph_data should contain a list of nodes under data key or directly under nodes key")) ∧
      (isArr (selected_nodes_val gd) = false →
        process_tweaks gd tw =
          .error (.valueError
            "graph_data should contain a list of nodes under data key or directly under nodes key"))) := by
  constructor
  · intro h
    have hcond : (!isObj gd || !isObj tw) = true := by
      rcases h with h | h <;> simp [h]
    have hv : validate_input gd tw =
        .error (.valueError "graph_data and tweaks should be dictionaries") := by
      unfold validate_input
      rw [if_pos hcond]
    refine ⟨hv, ?_⟩
    unfold process_tweaks
    rw [hv, bindErr]
  · intro hg ht hd
    have hv : validate_input gd tw =
        (match selected_nodes_val gd with
         | .arr xs => .ok xs
         | _ => .error (.valueError
             "graph_data should contain a list of nodes under data key or directly under nodes key")) := by
      unfold validate_input selected_nodes_val
      rw [if_neg (by simp [hg, ht])]
      cases hdv : (jlookup gd "data").getD (.obj []) with
      | obj dkvs =>
        simp only [bindOk, pyGetOpt, jlookup]
      | null => rw [hdv] at hd; simp [isObj] at hd
      | bool b => rw [hdv] at hd; simp [isObj] at hd
      | num n => rw [hdv] at hd; simp [isObj] at hd
      | str s => rw [hdv] at hd; simp [isObj] at hd
      | arr xs => rw [hdv] at hd; simp [isObj] at hd
    refine ⟨hv, ?_⟩
    intro hsel
    unfold process_tweaks
    rw [hv]
    cases hs : selected_nodes_val gd with
    | arr xs => rw [hs] at hsel; simp [isArr] at hsel
    | null => simp [bindErr]
    | bool b => simp [bindErr]
    | num n => simp [bindErr]
    | str s => simp [bindErr]
    | obj kvs => simp [bindErr]


/-- C9 witness. -/
theorem validate_input_selection_spec_witness :
    (isObj (Json.num 3) = false ∨ isObj (Json.obj []) = false) ∧
    (validate_input (Json.num 3) (.obj []) =
       .error (.valueError "graph_data and tweaks should be dictionaries") ∧
     process_tweaks (Json.num 3) (.obj []) =
       .error (.valueError "graph_data and tweaks should be dictionaries")) ∧
    (validate_input falsy_nodes_graph (.obj []) =
       (match selected_nodes_val falsy_nodes_graph with
        | .arr xs => .ok xs
        | _ => .error (.valueError
            "graph_data should contain a list of nodes under data key or directly under nodes key")) ∧
     (isArr (selected_nodes_val falsy_nodes_graph) = false →
       process_tweaks falsy_nodes_graph (.obj []) =
         .error (.valueError
           "graph_data should contain a list of nodes under data key or directly under nodes key"))) :=
  ⟨Or.inl rfl,
   (validate_input_selection_spec (Json.num 3) (.obj [])).1 (Or.inl rfl),
   (validate_input_selection_spec falsy_nodes_graph (.obj [])).2 rfl rfl rfl⟩

/-! ## Lemmas towards the tweak-application theorem -/

theorem mapMExcept_ok {a b : Type} (f : a → Except PyError b) (g : a → b) :
    ∀ xs : List a, (∀ x ∈ xs, f x = .ok (g x)) →
      mapMExcept f xs = .ok (xs.map g) := by
  intro xs
  induction xs with
  | nil => intro _; rfl
  | cons x xs ih =>
    intro h
    unfold mapMExcept
    rw [h x (List.mem_cons_self x xs), bindOk,
      ih (fun y hy => h y (List.mem_cons_of_mem x hy)), bindOk]
    simp

theorem allObjEntries_lookup {tkvs : List (String × Json)} {k : String}
    {v : Json} (hall : allObjEntries tkvs = true)
    (h : tkvs.lookup k = some v) : ∃ ekvs, v = .obj ekvs := by
  have hmem := lookup_mem h
  have hv := List.all_eq_true.mp hall _ hmem
  cases v with
  | obj e => exact ⟨e, rfl⟩
  | null => simp [isObj] at hv
  | bool b => simp [isObj] at hv
  | num n => simp [isObj] at hv
  | str s => simp [isObj] at hv
  | arr xs => simp [isObj] at hv

theorem allObjEntries_setKey {tkvs : List (String × Json)} {k : String}
    {ekvs : List (String × Json)} (hall : allObjEntries tkvs = true) :
    allObjEntries (setKey tkvs k (.obj ekvs)) = true := by
  unfold allObjEntries at *
  rw [List.all_eq_true] at *
  intro p hp
  obtain ⟨k', q⟩ := p
  rcases mem_setKey hp with h1 | h2
  · exact hall _ h1
  · rw [h2]; rfl

theorem allObjEntries_tweak_step_pure {tkvs : List (String × Json)}
    (p : String × Json) (hall : allObjEntries tkvs = true) :
    allObjEntries (tweak_step_pure tkvs p) = true := by
  unfold tweak_step_pure
  split
  · split
    · exact allObjEntries_setKey hall
    · exact hall
  · exact hall

theorem tweakStep_ok (tkvs : List (String × Json)) (p : String × Json)
    (hall : allObjEntries tkvs = true) :
    tweakStep tkvs p = .ok (tweak_step_pure tkvs p) := by
  unfold tweakStep tweak_step_pure
  split
  · next hcond =>
    have hsome : (tkvs.lookup p.1).isSome = true := by
      simp only [Bool.and_eq_true] at hcond
      exact hcond.2
    obtain ⟨v, hv⟩ := Option.isSome_iff_exists.mp hsome
    obtain ⟨ekvs, hekvs⟩ := allObjEntries_lookup hall hv
    subst hekvs
    simp [hv]
  · rfl

theorem tweakTemplate_ok :
    ∀ (ntkvs tkvs : List (String × Json)), allObjEntries tkvs = true →
      tweakTemplate tkvs ntkvs = .ok (tweak_template_pure tkvs ntkvs) := by
  intro ntkvs
  induction ntkvs with
  | nil => intro tkvs hall; rfl
  | cons p ps ih =>
    intro tkvs hall
    unfold tweakTemplate foldlMExcept
    rw [tweakStep_ok tkvs p hall, bindOk]
    have h1 := ih (tweak_step_pure tkvs p) (allObjEntries_tweak_step_pure p hall)
    unfold tweakTemplate at h1
    rw [h1]
    rfl

theorem tweak_step_pure_lookup_ne (tkvs : List (String × Json))
    (p : String × Json) (name : String) (h : p.1 ≠ name) :
    (tweak_step_pure tkvs p).lookup name = tkvs.lookup name := by
  unfold tweak_step_pure
  split
  · split
    · rw [lookup_setKey_ne _ _ _ (Ne.symm h)]
    · rfl
  · rfl

theorem tweak_template_pure_lookup_not_mem (name : String) :
    ∀ (ntkvs tkvs : List (String × Json)),
      (∀ p ∈ ntkvs, p.1 ≠ name) →
      (tweak_template_pure tkvs ntkvs).lookup name = tkvs.lookup name := by
  intro ntkvs
  induction ntkvs with
  | nil => intro tkvs _; rfl
  | cons p ps ih =>
    intro tkvs h
    unfold tweak_template_pure
    rw [List.foldl_cons]
    have h1 := ih (tweak_step_pure tkvs p)
      (fun q hq => h q (List.mem_cons_of_mem p hq))
    unfold tweak_template_pure at h1
    rw [h1, tweak_step_pure_lookup_ne tkvs p name (h p (List.mem_cons_self p ps))]

theorem nodupKeys_cons {k : String} {v : Json}
    {ps : List (String × Json)} (h : nodupKeys ((k, v) :: ps) = true) :
    k ∉ ps.map Prod.fst ∧ nodupKeys ps = true := by
  unfold nodupKeys at *
  rw [decide_eq_true_iff] at *
  simp only [List.map_cons, List.nodup_cons] at h
  exact ⟨h.1, h.2⟩

theorem tweak_template_pure_lookup (name : String) :
    ∀ (ntkvs tkvs : List (String × Json)),
      allObjEntries tkvs = true →
      nodupKeys ntkvs = true →
      (tweak_template_pure tkvs ntkvs).lookup name =
        (match ntkvs.lookup name with
         | some v =>
           if name != "" && jtruthy v && (tkvs.lookup name).isSome then
             (tkvs.lookup name).map (fun e =>
               match e with
               | .obj ekvs => Json.obj (setKey ekvs "value" v)
               | _ => e)
           else tkvs.lookup name
         | none => tkvs.lookup name) := by
  intro ntkvs
  induction ntkvs with
  | nil => intro tkvs hall hnd; rfl
  | cons p ps ih =>
    intro tkvs hall hnd
    obtain ⟨k, v⟩ := p
    obtain ⟨hknot, hnd'⟩ := nodupKeys_cons hnd
    by_cases hname : k = name
    · subst hname
      have hnotmem : ∀ q ∈ ps, q.1 ≠ k := by
        intro q hq hqe
        exact hknot (hqe ▸ List.mem_map_of_mem Prod.fst hq)
      unfold tweak_template_pure
      rw [List.foldl_cons]
      have h1 := tweak_template_pure_lookup_not_mem k ps
        (tweak_step_pure tkvs (k, v)) hnotmem
      unfold tweak_template_pure at h1
      rw [h1]
      rw [List.lookup_cons]
      simp only [beq_self_eq_true]
      unfold tweak_step_pure
      by_cases hcond : (k != "" && jtruthy v && (tkvs.lookup k).isSome) = true
      · rw [if_pos hcond]
        have hsome : (tkvs.lookup k).isSome = true := by
          simp only [Bool.and_eq_true] at hcond
          exact hcond.2
        obtain ⟨w, hw⟩ := Option.isSome_iff_exists.mp hsome
        obtain ⟨ekvs, hekvs⟩ := allObjEntries_lookup hall hw
        subst hekvs
        simp only [Bool.and_eq_true] at hcond
        simp [hw, hcond.1.1, hcond.1.2, lookup_setKey_self]
      · rw [if_neg hcond, if_neg hcond]
    · have hkb : (name == k) = false := by
        rw [beq_eq_false_iff_ne]
        exact fun hh => hname hh.symm
      unfold tweak_template_pure
      rw [List.foldl_cons]
      have h1 := ih (tweak_step_pure tkvs (k, v))
        (allObjEntries_tweak_step_pure (k, v) hall) hnd'
      unfold tweak_template_pure at h1
      rw [h1]
      have h2 := tweak_step_pure_lookup_ne tkvs (k, v) name hname
      rw [List.lookup_cons]
      simp only [hkb]
      rw [h2]


theorem apply_tweaks_ok {kvs : List (String × Json)} {s : String}
    (ntkvs : List (String × Json))
    (hid : kvs.lookup "id" = some (.str s))
    (hw : wellNode (.obj kvs) = true) :
    apply_tweaks (.obj kvs) (.obj ntkvs) =
      .ok (apply_tweaks_pure (.obj kvs) (.obj ntkvs)) := by
  unfold wellNode at hw
  simp only [hid] at hw
  unfold apply_tweaks apply_tweaks_pure
  simp only [pyGetD, bindOk, jlookup]
  cases hd1 : (kvs.lookup "data").getD (.obj []) with
  | obj d1kvs =>
    simp only [hd1] at hw ⊢
    simp only [pyGetD, bindOk]
    cases hd2 : (d1kvs.lookup "node").getD (.obj []) with
    | obj d2kvs =>
      simp only [hd2] at hw ⊢
      simp only [pyGetOpt, bindOk]
      cases ht : (d2kvs.lookup "template").getD .null with
      | obj tkvs =>
        simp only [ht] at hw ⊢
        rw [tweakTemplate_ok ntkvs tkvs hw, bindOk]
      | null => simp only [ht]
      | bool b => simp only [ht]
      | num n => simp only [ht]
      | str s2 => simp only [ht]
      | arr xs => simp only [ht]
    | null => simp only [hd2] at hw; simp at hw
    | bool b => simp only [hd2] at hw; simp at hw
    | num n => simp only [hd2] at hw; simp at hw
    | str s2 => simp only [hd2] at hw; simp at hw
    | arr xs => simp only [hd2] at hw; simp at hw
  | null => simp only [hd1] at hw; simp at hw
  | bool b => simp only [hd1] at hw; simp at hw
  | num n => simp only [hd1] at hw; simp at hw
  | str s2 => simp only [hd1] at hw; simp at hw
  | arr xs => simp only [hd1] at hw; simp at hw

theorem tweak_map_shaped_lookup {tweaks : Json} {nid : String} {tv : Json}
    (ht : tweak_map_shaped tweaks = true) (h : jlookup tweaks nid = some tv) :
    ∃ n, tv = .obj n ∧ nodupKeys n = true := by
  cases tweaks with
  | obj kvs =>
    simp only [jlookup] at h
    have hmem := lookup_mem h
    unfold tweak_map_shaped at ht
    have hv := List.all_eq_true.mp ht _ hmem
    cases tv with
    | obj n => exact ⟨n, rfl, hv⟩
    | null => simp at hv
    | bool b => simp at hv
    | num n => simp at hv
    | str s => simp at hv
    | arr xs => simp at hv
  | null => simp [jlookup] at h
  | bool b => simp [jlookup] at h
  | num n => simp [jlookup] at h
  | str s => simp [jlookup] at h
  | arr xs => simp [jlookup] at h

theorem tweakNode_ok (tweaks node : Json)
    (hw : wellNode node = true) (ht : tweak_map_shaped tweaks = true) :
    tweakNode tweaks node = .ok (tweak_node_pure tweaks node) := by
  unfold tweakNode tweak_node_pure
  cases node with
  | obj kvs =>
    cases hid : kvs.lookup "id" with
    | none => simp only [hid]
    | some idv =>
      cases idv with
      | str s =>
        simp only [hid]
        cases hl : jlookup tweaks s with
        | none => rfl
        | some tv =>
          obtain ⟨n, htv, hnd⟩ := tweak_map_shaped_lookup ht hl
          subst htv
          by_cases htr : jtruthy (.obj n) = true
          · simpa [htr] using apply_tweaks_ok n hid hw
          · simp [htr]
      | null => simp only [hid]
      | bool b => simp only [hid]
      | num n => simp only [hid]
      | obj o => simp only [hid]
      | arr xs => simp only [hid]
  | null => rfl
  | bool b => rfl
  | num n => rfl
  | str s => rfl
  | arr xs => rfl


theorem node_template_apply_pure (node : Json)
    (ntkvs : List (String × Json)) :
    node_template (apply_tweaks_pure node (.obj ntkvs)) =
      (node_template node).map
        (fun tkvs => tweak_template_pure tkvs ntkvs) := by
  cases node with
  | obj kvs =>
    cases hda : kvs.lookup "data" with
    | none => simp [apply_tweaks_pure, node_template, jlookup, hda]
    | some d1 =>
      cases d1 with
      | obj d1kvs =>
        cases hdn : d1kvs.lookup "node" with
        | none => simp [apply_tweaks_pure, node_template, jlookup, hda, hdn]
        | some d2 =>
          cases d2 with
          | obj d2kvs =>
            cases hdt : d2kvs.lookup "template" with
            | none =>
              simp [apply_tweaks_pure, node_template, jlookup, hda, hdn, hdt]
            | some tv =>
              cases tv with
              | obj tkvs =>
                simp [apply_tweaks_pure, node_template, jlookup, jSetObjKey,
                  lookup_setKey_self, hda, hdn, hdt]
              | null =>
                simp [apply_tweaks_pure, node_template, jlookup, hda, hdn, hdt]
              | bool b =>
                simp [apply_tweaks_pure, node_template, jlookup, hda, hdn, hdt]
              | num n =>
                simp [apply_tweaks_pure, node_template, jlookup, hda, hdn, hdt]
              | str s2 =>
                simp [apply_tweaks_pure, node_template, jlookup, hda, hdn, hdt]
              | arr xs =>
                simp [apply_tweaks_pure, node_template, jlookup, hda, hdn, hdt]
          | null => simp [apply_tweaks_pure, node_template, jlookup, hda, hdn]
          | bool b => simp [apply_tweaks_pure, node_template, jlookup, hda, hdn]
          | num n => simp [apply_tweaks_pure, node_template, jlookup, hda, hdn]
          | str s2 => simp [apply_tweaks_pure, node_template, jlookup, hda, hdn]
          | arr xs => simp [apply_tweaks_pure, node_template, jlookup, hda, hdn]
      | null => simp [apply_tweaks_pure, node_template, jlookup, hda]
      | bool b => simp [apply_tweaks_pure, node_template, jlookup, hda]
      | num n => simp [apply_tweaks_pure, node_template, jlookup, hda]
      | str s2 => simp [apply_tweaks_pure, node_template, jlookup, hda]
      | arr xs => simp [apply_tweaks_pure, node_template, jlookup, hda]
  | null => simp [apply_tweaks_pure, node_template, jlookup]
  | bool b => simp [apply_tweaks_pure, node_template, jlookup]
  | num n => simp [apply_tweaks_pure, node_template, jlookup]
  | str s => simp [apply_tweaks_pure, node_template, jlookup]
  | arr xs => simp [apply_tweaks_pure, node_template, jlookup]

theorem wellNode_allObj {kvs : List (String × Json)} {s : String}
    {tkvs : List (String × Json)}
    (hid : kvs.lookup "id" = some (.str s))
    (hw : wellNode (.obj kvs) = true)
    (ht : node_template (.obj kvs) = some tkvs) :
    allObjEntries tkvs = true := by
  unfold wellNode at hw
  simp only [hid] at hw
  unfold node_template at ht
  simp only [jlookup] at ht
  cases hd1 : (kvs.lookup "data").getD (.obj []) with
  | obj d1kvs =>
    simp only [hd1] at hw ht
    cases hd2 : (d1kvs.lookup "node").getD (.obj []) with
    | obj d2kvs =>
      simp only [hd2] at hw ht
      cases hdt : (d2kvs.lookup "template").getD .null with
      | obj tkvs2 =>
        simp only [hdt] at hw ht
        injection ht with ht2
        rw [← ht2]
        exact hw
      | null => rw [hdt] at ht; simp at ht
      | bool b => rw [hdt] at ht; simp at ht
      | num n => rw [hdt] at ht; simp at ht
      | str s2 => rw [hdt] at ht; simp at ht
      | arr xs => rw [hdt] at ht; simp at ht
    | null => simp only [hd2] at hw; simp at hw
    | bool b => simp only [hd2] at hw; simp at hw
    | num n => simp only [hd2] at hw; simp at hw
    | str s2 => simp only [hd2] at hw; simp at hw
    | arr xs => simp only [hd2] at hw; simp at hw
  | null => simp only [hd1] at hw; simp at hw
  | bool b => simp only [hd1] at hw; simp at hw
  | num n => simp only [hd1] at hw; simp at hw
  | str s2 => simp only [hd1] at hw; simp at hw
  | arr xs => simp only [hd1] at hw; simp at hw


theorem tweak_node_pure_template {kvs ntkvs : List (String × Json)}
    {nodeId : String} {tweaks : Json}
    (hidl : kvs.lookup "id" = some (.str nodeId))
    (hw : wellNode (.obj kvs) = true)
    (hnd : nodupKeys ntkvs = true)
    (hl : jlookup tweaks nodeId = some (.obj ntkvs))
    (name : String) :
    (ntkvs.lookup name = none →
      template_entry (tweak_node_pure tweaks (.obj kvs)) name =
        template_entry (.obj kvs) name) ∧
    (template_entry (.obj kvs) name = none →
      template_entry (tweak_node_pure tweaks (.obj kvs)) name = none) ∧
    ∀ v : Json, ntkvs.lookup name = some v →
      ((name != "" && jtruthy v) = true →
        (template_entry (.obj kvs) name).isSome = true →
        template_value (tweak_node_pure tweaks (.obj kvs)) name = some v) ∧
      ((name != "" && jtruthy v) = false →
        template_entry (tweak_node_pure tweaks (.obj kvs)) name =
          template_entry (.obj kvs) name) := by
  by_cases hemp : ntkvs.isEmpty = true
  · -- the tweak entry is empty, hence falsy: the node is left unchanged
    have hnil : ntkvs = [] := List.isEmpty_iff.mp hemp
    subst hnil
    have hred : tweak_node_pure tweaks (.obj kvs) = .obj kvs := by
      simp [tweak_node_pure, hidl, hl, jtruthy]
    rw [hred]
    exact ⟨fun _ => rfl, fun h => h,
      fun v hv => by simp [List.lookup] at hv⟩
  · have hemp2 : ntkvs.isEmpty = false := by simpa using hemp
    have htr : jtruthy (.obj ntkvs) = true := by simp [jtruthy, hemp2]
    have hred : tweak_node_pure tweaks (.obj kvs) =
        apply_tweaks_pure (.obj kvs) (.obj ntkvs) := by
      simp [tweak_node_pure, hidl, hl, htr]
    rw [hred]
    have htmpl := node_template_apply_pure (.obj kvs) ntkvs
    cases hn : node_template (.obj kvs) with
    | none =>
      rw [hn] at htmpl
      simp only [Option.map] at htmpl
      refine ⟨?_, ?_, ?_⟩
      · intro _
        simp [template_entry, htmpl, hn]
      · intro _
        simp [template_entry, htmpl]
      · intro v hv
        refine ⟨?_, ?_⟩
        · intro _ hsome
          simp [template_entry, hn] at hsome
        · intro _
          simp [template_entry, htmpl, hn]
    | some tkvs =>
      rw [hn] at htmpl
      simp only [Option.map] at htmpl
      have hall := wellNode_allObj hidl hw hn
      have hchar := tweak_template_pure_lookup name ntkvs tkvs hall hnd
      refine ⟨?_, ?_, ?_⟩
      · intro hnone
        rw [hnone] at hchar
        simp [template_entry, htmpl, hn, hchar]
      · intro hentry
        have hlk : tkvs.lookup name = none := by
          simpa [template_entry, hn] using hentry
        cases hv : ntkvs.lookup name with
        | none =>
          rw [hv] at hchar
          simp [template_entry, htmpl, hchar, hlk]
        | some v =>
          rw [hv, hlk] at hchar
          simp only [Option.isSome_none, Bool.and_false] at hchar
          simp only [Bool.false_eq_true, if_false] at hchar
          simp [template_entry, htmpl, hchar, hlk]
      · intro v hv
        rw [hv] at hchar
        constructor
        · intro hcond hsome
          obtain ⟨e, he⟩ : ∃ e, tkvs.lookup name = some e := by
            cases htl : tkvs.lookup name with
            | none => simp [template_entry, hn, htl] at hsome
            | some e => exact ⟨e, rfl⟩
          obtain ⟨ekvs, hekvs⟩ := allObjEntries_lookup hall he
          subst hekvs
          rw [he] at hchar
          simp only [Option.isSome_some, Bool.and_true, hcond] at hchar
          simp at hchar
          simp [template_value, template_entry, htmpl, hchar, jlookup,
            lookup_setKey_self]
        · intro hcond
          simp only [hcond, Bool.false_and] at hchar
          simp only [Bool.false_eq_true, if_false] at hchar
          simp [template_entry, htmpl, hn, hchar]


/-- C1 (amended): for a graph description whose selected node list is
well-shaped and any tweak map (a dictionary of per-node dictionaries),
`process_tweaks` does not raise; a tweak entry `(nodeId, name, value)`
whose node exists and whose name is a template key is applied — its
descriptor value becomes `value` — provided `name` and `value` are truthy
(Python falsy names and values are skipped, leaving the entry unchanged);
names absent from the template and names not tweaked are left untouched. -/
theorem process_tweaks_well_shaped (graph_data tweaks : Json) (xs : List Json)
    (hsel : validate_input graph_data tweaks = .ok xs)
    (hnodes : ∀ n ∈ xs, wellNode n = true)
    (ht : tweak_map_shaped tweaks = true) :
    process_tweaks graph_data tweaks =
      .ok (replaceNodes graph_data
        (.arr (xs.map (tweak_node_pure tweaks)))) ∧
    ∀ n ∈ xs, ∀ (nodeId : String) (ntkvs : List (String × Json)),
      node_id_of n = some nodeId →
      jlookup tweaks nodeId = some (.obj ntkvs) →
      ∀ name : String,
        (ntkvs.lookup name = none →
          template_entry (tweak_node_pure tweaks n) name =
            template_entry n name) ∧
        (template_entry n name = none →
          template_entry (tweak_node_pure tweaks n) name = none) ∧
        ∀ v : Json, ntkvs.lookup name = some v →
          ((name != "" && jtruthy v) = true →
            (template_entry n name).isSome = true →
            template_value (tweak_node_pure tweaks n) name = some v) ∧
          ((name != "" && jtruthy v) = false →
            template_entry (tweak_node_pure tweaks n) name =
              template_entry n name) := by
  constructor
  · unfold process_tweaks
    rw [hsel, bindOk,
      mapMExcept_ok (tweakNode tweaks) (tweak_node_pure tweaks) xs
        (fun n hn => tweakNode_ok tweaks n (hnodes n hn) ht),
      bindOk]
  · intro n hn nodeId ntkvs hid hl name
    obtain ⟨kvs, rfl, hidl⟩ :
        ∃ kvs, n = .obj kvs ∧ kvs.lookup "id" = some (.str nodeId) := by
      cases n with
      | obj kvs =>
        refine ⟨kvs, rfl, ?_⟩
        unfold node_id_of at hid
        cases hi : kvs.lookup "id" with
        | none => simp [hi] at hid
        | some idv =>
          cases idv with
          | str s2 =>
            simp only [hi] at hid
            injection hid with hid2
            rw [hid2]
          | null => simp [hi] at hid
          | bool b => simp [hi] at hid
          | num n2 => simp [hi] at hid
          | arr xs2 => simp [hi] at hid
          | obj o2 => simp [hi] at hid
      | null => simp [node_id_of] at hid
      | bool b => simp [node_id_of] at hid
      | num n2 => simp [node_id_of] at hid
      | str s2 => simp [node_id_of] at hid
      | arr xs2 => simp [node_id_of] at hid
    have hnd : nodupKeys ntkvs = true := by
      obtain ⟨n2, he, hnd2⟩ := tweak_map_shaped_lookup ht hl
      injection he with he2
      rw [he2]
      exact hnd2
    exact tweak_node_pure_template hidl (hnodes _ hn) hnd hl name

/-- C1 counterexample: the tweak `(n1, temperature, 0)` targets an existing
node and an existing template key, yet `process_tweaks` leaves the graph
unchanged — the descriptor value stays `1` instead of becoming `0` — because
`apply_tweaks` skips every pair whose value is Python-falsy. -/
theorem process_tweaks_falsy_value_skipped :
    validate_input temp_graph falsy_tweaks = .ok [temp_node] ∧
    jlookup falsy_tweaks "n1" = some (.obj [("temperature", .num 0)]) ∧
    process_tweaks temp_graph falsy_tweaks = .ok temp_graph ∧
    template_value temp_node "temperature" = some (.num 1) ∧
    Json.num 1 ≠ Json.num 0 :=
  ⟨rfl, rfl, rfl, rfl, by simp⟩

/-- C1 witness. -/
theorem process_tweaks_well_shaped_witness :
    validate_input temp_graph truthy_tweaks = .ok [temp_node] ∧
    process_tweaks temp_graph truthy_tweaks =
      .ok (replaceNodes temp_graph
        (.arr ([temp_node].map (tweak_node_pure truthy_tweaks)))) ∧
    template_value (tweak_node_pure truthy_tweaks temp_node) "temperature" =
      some (.num 9) := by
  refine ⟨rfl, ?_, ?_⟩
  · exact (process_tweaks_well_shaped temp_graph truthy_tweaks [temp_node]
      rfl (by decide) (by decide)).1
  · exact (((process_tweaks_well_shaped temp_graph truthy_tweaks [temp_node]
        rfl (by decide) (by decide)).2
      temp_node (by simp) "n1" [("temperature", .num 9)] rfl rfl
      "temperature").2.2 (.num 9) rfl).1 rfl rfl

end Langflow
